import Mathlib

/-!
Shallow embedding of the patch-apply-and-push worker
(`src/src/pulselistener/pulselistener/mercurial.py`, class `MercurialWorker`).

External effects (mercurial commands, review-service calls) are recorded in a
trace; the outcome of each fallible external command is given by an `Env`
oracle.  Python exceptions are modelled with `Except PyErr`.  The working tree
is modelled by the list of local draft commits plus the list of uncommitted
changes.  The review-service reporter wrappers (`update_build_target`,
`create_harbormaster_uri`) live in `cli_common.phabricator`, which is not part
of the analyzed sources; following the specification they are modelled as
best-effort calls that never raise.
-/

set_option maxHeartbeats 1600000
set_option maxRecDepth 8192

namespace PulseListener

/-- Substring occurrence test on character lists: does `pat` occur
contiguously inside the second list? -/
def subListAt (pat : List Char) : List Char → Bool
  | [] => pat.isEmpty
  | c :: rest => pat.isPrefixOf (c :: rest) || subListAt pat rest

/-- Python `pat in s` for strings: `pat` occurs as a substring of `s`. -/
def hasSubstr (s pat : String) : Bool :=
  subListAt pat.toList s.toList

/-- Modelled from the spec: the remote trigger branch (constant `REPO_TRY`
from `pulselistener.config`, a module outside the analyzed sources). -/
def REPO_TRY : String := "ssh://hg.mozilla.org/try"

/-- The treeherder dashboard URL for a pushed revision
(`TREEHERDER_URL.format(...)` in the source). -/
def treeherderUrl (node : String) : String :=
  "https://treeherder.mozilla.org/#/jobs?repo=try&revision=" ++ node

/-- Python `a or b` for an optional string `a`: `None` and the empty string
are falsy and fall through to `b`. -/
def pyOr (a : Option String) (b : String) : String :=
  match a with
  | some t => if t = "" then b else t
  | none => b

/-- Python truthiness of an optional string. -/
def truthy : Option String → Bool
  | some t => t != ""
  | none => false

/-! JSON values and a serializer mirroring Python
`json.dump(obj, f, sort_keys=True, indent=4)` for the value shapes the
worker writes. -/

inductive PyJson where
  | jstr (s : String)
  | jbool (b : Bool)
  | jnum (n : Nat)
  | jobj (fields : List (String × PyJson))

/-- One lowercase hexadecimal digit. -/
def hexDig (n : Nat) : Char :=
  if n < 10 then Char.ofNat (48 + n) else Char.ofNat (87 + n)

/-- Four lowercase hexadecimal digits. -/
def hex4 (n : Nat) : String :=
  String.mk [hexDig (n / 4096 % 16), hexDig (n / 256 % 16), hexDig (n / 16 % 16), hexDig (n % 16)]

/-- Python json `\uXXXX` escape, with surrogate pairs beyond the BMP. -/
def uEscape (n : Nat) : String :=
  if n < 65536 then "\\u" ++ hex4 n
  else
    "\\u" ++ hex4 (55296 + (n - 65536) / 1024) ++ "\\u" ++ hex4 (56320 + (n - 65536) % 1024)

/-- Escape of one character as Python `json.dump` does by default
(`ensure_ascii=True`): everything outside printable ASCII is escaped. -/
def escChar (c : Char) : String :=
  if c = '"' then "\\\""
  else if c = '\\' then "\\\\"
  else if c = '\n' then "\\n"
  else if c = '\r' then "\\r"
  else if c = '\t' then "\\t"
  else if c.toNat = 8 then "\\b"
  else if c.toNat = 12 then "\\f"
  else if c.toNat < 32 || c.toNat > 126 then uEscape c.toNat
  else String.singleton c

/-- A JSON string literal with Python json escaping. -/
def escString (s : String) : String :=
  "\"" ++ String.join (s.toList.map escChar) ++ "\""

/-- Lexicographic order on character lists by code point, as Python compares
strings. -/
def charsLt : List Char → List Char → Bool
  | _, [] => false
  | [], _ :: _ => true
  | a :: as, b :: bs =>
    if a.toNat < b.toNat then true
    else if b.toNat < a.toNat then false
    else charsLt as bs

/-- Python string `<`. -/
def pyStrLt (a b : String) : Bool := charsLt a.toList b.toList

/-- Insertion into a key-sorted list of rendered fields. -/
def insertPair (p : String × String) : List (String × String) → List (String × String)
  | [] => [p]
  | q :: rest => if pyStrLt p.1 q.1 then p :: q :: rest else q :: insertPair p rest

/-- Key-sorting of rendered fields, as `sort_keys=True` does. -/
def sortPairs : List (String × String) → List (String × String)
  | [] => []
  | p :: rest => insertPair p (sortPairs rest)

/-- Indentation of `4 * lvl` spaces, as `indent=4` produces. -/
def indentStr (lvl : Nat) : String :=
  String.mk (List.replicate (4 * lvl) ' ')

/-- Rendering of an object from its rendered fields at nesting level `lvl`. -/
def renderObj (lvl : Nat) (pairs : List (String × String)) : String :=
  if pairs.isEmpty then "\x7b\x7d"
  else
    "\x7b\n" ++
      String.intercalate ",\n"
        (pairs.map (fun kv => indentStr (lvl + 1) ++ escString kv.1 ++ ": " ++ kv.2)) ++
      "\n" ++ indentStr lvl ++ "\x7d"

mutual

/-- Serializer for `json.dump(.., sort_keys=True, indent=4)`. -/
def pyDump : Nat → PyJson → String
  | _, .jstr s => escString s
  | _, .jbool b => if b then "true" else "false"
  | _, .jnum n => toString n
  | lvl, .jobj fields => renderObj lvl (sortPairs (pyDumpFields lvl fields))

/-- Serialization of each field value of an object at level `lvl`. -/
def pyDumpFields : Nat → List (String × PyJson) → List (String × String)
  | _, [] => []
  | lvl, (k, v) :: rest => (k, pyDump (lvl + 1) v) :: pyDumpFields lvl rest

end

/-- Top-level dump, at nesting level 0. -/
def pyJsonDump (j : PyJson) : String := pyDump 0 j

/-! Review-service data shapes.  `BuildState`, `UnitResultState` and
`UnitResult` come from `cli_common.phabricator`, outside the analyzed
sources; modelled from the spec (sections 3 and 6). -/

/-- Modelled from the spec: build target states (section 6). -/
inductive BuildState where
  | pass
  | fail
  | work
deriving DecidableEq

/-- Modelled from the spec: unit result states (section 3). -/
inductive UnitResultState where
  | pass
  | fail
  | broken
deriving DecidableEq

/-- Modelled from the spec: a unit result record (section 3).  `nspace` is
the `namespace` keyword argument of the source. -/
structure UnitResult where
  nspace : String
  name : String
  result : UnitResultState
  details : String
  format : String
  duration : Nat
deriving DecidableEq

/-- One recorded external effect of the worker. -/
inductive Effect where
  | strip
  | pull
  | loadStack
  | searchDiffs
  | importPatch (phid message : String)
  | writeConfig (path content : String)
  | add (path : String)
  | commit (message user : String)
  | readTip
  | push (dest rev : String) (force : Bool)
  | harbormasterUri (target kind label uri : String)
  | revert (path : String)
  | updateBuildTarget (target : Option String) (state : BuildState) (unit : List UnitResult)
deriving DecidableEq

/-- The local working tree: local draft commits (message, user) on top of the
remote baseline, and uncommitted working-directory changes. -/
structure TreeState where
  drafts : List (String × String)
  uncommitted : List String
deriving DecidableEq

/-- Worker state: the trace of external effects plus the tree. -/
structure WState where
  trace : List Effect
  tree : TreeState
deriving DecidableEq

/-- A Python exception at the pipeline boundary: an
`hglib.error.CommandError` carrying decoded stderr, or any other exception
carrying its `str`. -/
inductive PyErr where
  | commandError (err : String)
  | genericError (msg : String)
deriving DecidableEq

/-- Oracle for the outcome of each fallible external command during one run:
`none` means the command succeeds, `some e` that it raises a
`CommandError` with stderr `e`; the review-service read calls either return
their payload or raise.  `startTime`/`failTime` are the two `time.time()`
readings of `handle_build`. -/
structure Env where
  stripErr : Option String
  pullErr : Option String
  stackResult : Except String (String × List (String × String))
  searchResult : Except String (List (String × List String))
  importErr : String → Option String
  addErr : Option String
  commitErr : Option String
  tipNode : String
  pushErr : Option String
  startTime : Nat
  failTime : Nat

/-- The worker configuration fields the pipeline reads. -/
structure MercurialWorker where
  repo_dir : String
  publish_phabricator : Bool
deriving DecidableEq

/-- Model of `self.repo.pull()` at the end of `clean`. -/
def doPull (env : Env) (s : WState) : Except PyErr Unit × WState :=
  let s' : WState := ⟨s.trace ++ [.pull], s.tree⟩
  match env.pullErr with
  | some e => (.error (.commandError e), s')
  | none => (.ok (), s')

/-- Model of `MercurialWorker.clean`: strip local drafts, swallowing only the
`abort: empty revision set` failure, then pull. -/
def clean (env : Env) (s : WState) : Except PyErr Unit × WState :=
  match env.stripErr with
  | some e =>
    let s' : WState := ⟨s.trace ++ [.strip], s.tree⟩
    if hasSubstr e "abort: empty revision set" then doPull env s'
    else (.error (.commandError e), s')
  | none =>
    let s' : WState := ⟨s.trace ++ [.strip], ⟨[], s.tree.uncommitted⟩⟩
    doPull env s'

/-- The commit message attached to one applied stack entry: the first
associated commit message, when one exists, then the trailer line. -/
def patchMessage (commits : String → Option (List String)) (diff_phid : String) : String :=
  (match commits diff_phid with
   | some (m :: _) => m ++ "\n"
   | _ => "") ++ "Differential Diff: " ++ diff_phid

/-- The per-entry loop of `push_to_try`: apply each stack entry as its own
commit; a failed apply leaves partial changes in the working directory and
raises. -/
def applyPatches (env : Env) (commits : String → Option (List String)) :
    List (String × String) → WState → Except PyErr Unit × WState
  | [], s => (.ok (), s)
  | (diff_phid, _patch) :: rest, s =>
    let message := patchMessage commits diff_phid
    let s' : WState := ⟨s.trace ++ [.importPatch diff_phid message], s.tree⟩
    match env.importErr diff_phid with
    | some e =>
      (.error (.commandError e), ⟨s'.trace, ⟨s'.tree.drafts, s'.tree.uncommitted ++ [diff_phid]⟩⟩)
    | none =>
      applyPatches env commits rest
        ⟨s'.trace, ⟨s'.tree.drafts ++ [(message, "pulselistener")], s'.tree.uncommitted⟩⟩

/-- The trigger config dictionary, in source construction order. -/
def configJson (phabricator_diff : String) : PyJson :=
  .jobj [("version", .jnum 2),
         ("parameters", .jobj
           [("target_tasks_method", .jstr "codereview"),
            ("optimize_target_tasks", .jbool true),
            ("phabricator_diff", .jstr phabricator_diff)])]

/-- Tail of `push_to_try` after the stack is applied: write and commit
`try_task_config.json`, read the tip, guard against a no-op change, push to
try, and publish the treeherder link. -/
def finishRun (env : Env) (w : MercurialWorker) (btp : Option String) (diff_phid base : String)
    (s : WState) : Except PyErr Unit × WState :=
  let configPath := w.repo_dir ++ "/try_task_config.json"
  let content := pyJsonDump (configJson (pyOr btp diff_phid))
  let s₁ : WState := ⟨s.trace ++ [.writeConfig configPath content],
                      ⟨s.tree.drafts, s.tree.uncommitted ++ [configPath]⟩⟩
  let s₂ : WState := ⟨s₁.trace ++ [.add configPath], s₁.tree⟩
  match env.addErr with
  | some e => (.error (.commandError e), s₂)
  | none =>
    let msg := "try_task_config for code-review\nDifferential Diff: " ++ diff_phid
    let s₃ : WState := ⟨s₂.trace ++ [.commit msg "pulselistener"], s₂.tree⟩
    match env.commitErr with
    | some e => (.error (.commandError e), s₃)
    | none =>
      let s₄ : WState := ⟨s₃.trace ++ [.readTip],
                          ⟨s₃.tree.drafts ++ [(msg, "pulselistener")], []⟩⟩
      if env.tipNode = base then
        (.error (.genericError
          ("Commit is the same as base (" ++ env.tipNode ++ "), nothing changed !")), s₄)
      else
        let s₅ : WState := ⟨s₄.trace ++ [.push REPO_TRY env.tipNode true], s₄.tree⟩
        match env.pushErr with
        | some e => (.error (.commandError e), s₅)
        | none =>
          match btp with
          | some target =>
            if target != "" && w.publish_phabricator then
              (.ok (), ⟨s₅.trace ++
                [.harbormasterUri target "treeherder" "Treeherder Jobs" (treeherderUrl env.tipNode)],
                s₅.tree⟩)
            else (.ok (), s₅)
          | none => (.ok (), s₅)

/-- The per-phid commit-message mapping built from the `search_diffs`
payload, with later duplicate keys overriding earlier ones as in a Python
dict comprehension. -/
def commitsFun (ds : List (String × List String)) : String → Option (List String) :=
  fun k => List.lookup k ds.reverse

/-- Model of `MercurialWorker.push_to_try`: clean, resolve the stack, fail on an
empty stack, batch-fetch commit messages, apply the stack, then finish. -/
def push_to_try (env : Env) (w : MercurialWorker) (btp : Option String) (diff_phid : String)
    (s : WState) : Except PyErr Unit × WState :=
  match clean env s with
  | (.error e, s₁) => (.error e, s₁)
  | (.ok _, s₁) =>
    let s₂ : WState := ⟨s₁.trace ++ [.loadStack], s₁.tree⟩
    match env.stackResult with
    | .error msg => (.error (.genericError msg), s₂)
    | .ok (base, patches) =>
      if patches.isEmpty then (.error (.genericError "No patches to apply"), s₂)
      else
        let s₃ : WState := ⟨s₂.trace ++ [.searchDiffs], s₂.tree⟩
        match env.searchResult with
        | .error msg => (.error (.genericError msg), s₃)
        | .ok diffs =>
          match applyPatches env (commitsFun diffs) patches s₃ with
          | (.error e, s₄) => (.error e, s₄)
          | (.ok _, s₄) => finishRun env w btp diff_phid base s₄

/-- Model of `hg revert --all` on the tree: discards every uncommitted change,
keeping committed history. -/
def revertAllTree (t : TreeState) : TreeState :=
  ⟨t.drafts, []⟩

/-- The `UnitResult` `handle_build` reports for a captured failure. -/
def failureUnit (env : Env) (e : PyErr) : UnitResult :=
  match e with
  | .commandError err =>
    ⟨"code-review", "mercurial", .fail,
     "WARNING: The code review bot failed to apply your patch.\n\n```" ++ err ++ "```",
     "remarkup", env.failTime - env.startTime⟩
  | .genericError msg =>
    ⟨"code-review", "general", .broken,
     "WARNING: An error occured in the code review bot.\n\n```" ++ msg ++ "```",
     "remarkup", env.failTime - env.startTime⟩

/-- Model of `MercurialWorker.handle_build`: run the pipeline, catch both exception
kinds at the boundary, revert on failure, report the failure when
publication is enabled, and return a boolean success flag. -/
def handle_build (env : Env) (w : MercurialWorker) (btp : Option String) (diff_phid : String)
    (s : WState) : Bool × WState :=
  match push_to_try env w btp diff_phid s with
  | (.ok _, s') => (true, s')
  | (.error e, s') =>
    let s₂ : WState := ⟨s'.trace ++ [.revert w.repo_dir], revertAllTree s'.tree⟩
    let s₃ : WState :=
      if w.publish_phabricator then
        ⟨s₂.trace ++ [.updateBuildTarget btp .fail [failureUnit env e]], s₂.tree⟩
      else s₂
    (false, s₃)

/-- A queue-entry diff payload as the worker loop receives it: a Python
value that may or may not be a dictionary with a `phid` key. -/
inductive PyVal where
  | pdict (entries : List (String × String))
  | pstr (s : String)
  | pnone
deriving DecidableEq

/-- The two assertions of the worker loop, as one test. -/
def wellFormedEntry (entry : Option String × PyVal) : Bool :=
  match entry.2 with
  | .pdict l => (List.lookup "phid" l).isSome
  | _ => false

/-- One iteration of `MercurialWorker.run`: assert the payload shape
(an uncaught `AssertionError` on violation), then drive `handle_build`. -/
def workerStep (env : Env) (w : MercurialWorker) (entry : Option String × PyVal) (s : WState) :
    Except PyErr (Bool × WState) :=
  match entry.2 with
  | .pdict l =>
    match List.lookup "phid" l with
    | some phid => .ok (handle_build env w entry.1 phid s)
    | none => .error (.genericError "")
  | _ => .error (.genericError "")

/-- The worker loop over a finite queue prefix: an uncaught exception from
one iteration terminates the loop. -/
def workerLoop (env : Env) (w : MercurialWorker) :
    List (Option String × PyVal) → WState → Except PyErr (List Bool × WState)
  | [], s => .ok ([], s)
  | entry :: rest, s =>
    match workerStep env w entry s with
    | .error e => .error e
    | .ok (b, s') =>
      match workerLoop env w rest s' with
      | .error e => .error e
      | .ok (bs, s'') => .ok (b :: bs, s'')

/-- A call to the review service that publishes an outcome. -/
def isPublishCall : Effect → Bool
  | .harbormasterUri _ _ _ _ => true
  | .updateBuildTarget _ _ _ => true
  | _ => false

/-- An effect that mutates the working tree beyond the baseline sync of
`clean` (applying patches, writing, staging or committing the config). -/
def treeMutation : Effect → Bool
  | .importPatch _ _ => true
  | .writeConfig _ _ => true
  | .add _ => true
  | .commit _ _ => true
  | _ => false

/-- Predicate: `clean` succeeds under this oracle: the strip either succeeds or fails
only with the benign empty-revision-set error, and the pull succeeds. -/
def cleanOkB (env : Env) : Bool :=
  (match env.stripErr with
   | none => true
   | some e => hasSubstr e "abort: empty revision set") && env.pullErr.isNone

/-- The import effects of a fully successful application of a stack. -/
def importEffects (commits : String → Option (List String)) (ps : List (String × String)) :
    List Effect :=
  ps.map (fun p => .importPatch p.1 (patchMessage commits p.1))

/-- The draft commits a fully successful application of a stack creates. -/
def draftsOf (commits : String → Option (List String)) (ps : List (String × String)) :
    List (String × String) :=
  ps.map (fun p => (patchMessage commits p.1, "pulselistener"))

/-! Helper lemmas. -/

theorem strAssoc : ∀ a b c : String, (a ++ b) ++ c = a ++ (b ++ c) := by
  intro a b c
  apply String.ext
  simp [String.data_append]

/-- The serialized trigger config text before the `phabricator_diff` value:
keys sorted, 4-space indentation. -/
def cfgBefore : String :=
  "\x7b\n    \"parameters\": \x7b\n        \"optimize_target_tasks\": true,\n        \"phabricator_diff\": "

/-- The serialized trigger config text after the `phabricator_diff` value. -/
def cfgAfter : String :=
  ",\n        \"target_tasks_method\": \"codereview\"\n    \x7d,\n    \"version\": 2\n\x7d"

/-- The trigger config serializes to the exact sorted, 4-space-indented JSON
text, for every `phabricator_diff` value. -/
theorem configJson_dump (pd : String) :
    pyJsonDump (configJson pd) = cfgBefore ++ escString pd ++ cfgAfter := by
  have hc : pyJsonDump (configJson pd) =
      ((("\x7b\n" ++
          ((("    \"parameters\": " ++
              (((("\x7b\n" ++
                  (((("        \"optimize_target_tasks\": true" ++ ",\n") ++
                      ("        \"phabricator_diff\": " ++ escString pd)) ++ ",\n") ++
                    "        \"target_tasks_method\": \"codereview\"")) ++ "\n") ++ "    ") ++ "\x7d")) ++
            ",\n") ++ "    \"version\": 2")) ++ "\n") ++ "") ++ "\x7d" := rfl
  rw [hc]
  simp only [cfgBefore, cfgAfter]
  simp only [strAssoc]
  simp
  repeat rw [← strAssoc]
  simp

theorem isPrefixOf_append_self : ∀ (p t : List Char), p.isPrefixOf (p ++ t) = true := by
  intro p t
  induction p with
  | nil => cases t <;> rfl
  | cons c rest ih => simp [List.isPrefixOf, ih]

theorem subListAt_nil : ∀ l : List Char, subListAt [] l = true := by
  intro l
  cases l <;> rfl

theorem subListAt_mid : ∀ (a : List Char) (x b : List Char),
    subListAt x (a ++ (x ++ b)) = true := by
  intro a x b
  induction a with
  | nil =>
    cases x with
    | nil => simpa using subListAt_nil b
    | cons c rest => simp [subListAt, isPrefixOf_append_self]
  | cons c rest ih => simp [subListAt, ih]

/-- A string occurs as a substring of any surrounding concatenation. -/
theorem hasSubstr_mid (a x b : String) : hasSubstr (a ++ x ++ b) x = true := by
  have hd : (a ++ x ++ b).toList = a.toList ++ (x.toList ++ b.toList) := by
    simp [String.toList, String.data_append]
  simp only [hasSubstr, hd]
  exact subListAt_mid a.toList x.toList b.toList

theorem doPull_state (env : Env) (s : WState) :
    (doPull env s).2 = ⟨s.trace ++ [.pull], s.tree⟩ := by
  unfold doPull
  cases env.pullErr <;> rfl

/-- Under a benign-or-clean oracle and no local drafts, `clean` succeeds and
only records the strip and pull calls. -/
theorem clean_ok (env : Env) (s : WState) (hok : cleanOkB env = true)
    (hd : s.tree.drafts = []) :
    clean env s = (.ok (), ⟨s.trace ++ [.strip, .pull], s.tree⟩) := by
  obtain ⟨tr, dfts, unc⟩ := s
  replace hd : dfts = [] := hd
  subst hd
  unfold cleanOkB at hok
  rw [Bool.and_eq_true] at hok
  have hpull : env.pullErr = none := Option.isNone_iff_eq_none.mp hok.2
  cases hs : env.stripErr with
  | none => simp [clean, hs, doPull, hpull]
  | some e =>
    have hb : hasSubstr e "abort: empty revision set" = true := by
      rw [hs] at hok
      exact hok.1
    simp [clean, hs, hb, doPull, hpull]

/-- A fully successful stack application: one import effect and one draft
commit per stack entry, uncommitted changes untouched. -/
theorem applyPatches_ok (env : Env) (c : String → Option (List String)) :
    ∀ (ps : List (String × String)) (s : WState),
    (∀ p ∈ ps, env.importErr p.1 = none) →
    applyPatches env c ps s =
      (.ok (), ⟨s.trace ++ importEffects c ps,
                ⟨s.tree.drafts ++ draftsOf c ps, s.tree.uncommitted⟩⟩) := by
  intro ps
  induction ps with
  | nil =>
    intro s _
    simp [applyPatches, importEffects, draftsOf]
  | cons p rest ih =>
    intro s h
    obtain ⟨phid, patch⟩ := p
    have hp : env.importErr phid = none := h (phid, patch) (by simp)
    have hrest : ∀ q ∈ rest, env.importErr q.1 = none := fun q hq => h q (by simp [hq])
    simp only [applyPatches, hp]
    rw [ih _ hrest]
    simp [importEffects, draftsOf]

/-- Every `applyPatches` outcome only appends non-publishing effects to the
trace. -/
theorem applyPatches_traceDelta (env : Env) (c : String → Option (List String)) :
    ∀ (ps : List (String × String)) (s : WState),
    ∃ Δ, (applyPatches env c ps s).2.trace = s.trace ++ Δ ∧
      ∀ e ∈ Δ, isPublishCall e = false := by
  intro ps
  induction ps with
  | nil =>
    intro s
    exact ⟨[], by simp [applyPatches]⟩
  | cons p rest ih =>
    intro s
    obtain ⟨phid, patch⟩ := p
    cases hp : env.importErr phid with
    | some e =>
      refine ⟨[.importPatch phid (patchMessage c phid)], ?_, ?_⟩
      · simp [applyPatches, hp]
      · simp [isPublishCall]
    | none =>
      obtain ⟨Δ, hΔ, hnp⟩ := ih ⟨s.trace ++ [.importPatch phid (patchMessage c phid)],
        ⟨s.tree.drafts ++ [(patchMessage c phid, "pulselistener")], s.tree.uncommitted⟩⟩
      refine ⟨.importPatch phid (patchMessage c phid) :: Δ, ?_, ?_⟩
      · simp only [applyPatches, hp]
        rw [hΔ]
        simp
      · intro e he
        rcases List.mem_cons.mp he with h | h
        · subst h
          rfl
        · exact hnp e h

/-- Every `clean` outcome only appends non-publishing effects to the trace. -/
theorem clean_traceDelta (env : Env) (s : WState) :
    ∃ Δ, (clean env s).2.trace = s.trace ++ Δ ∧ ∀ e ∈ Δ, isPublishCall e = false := by
  cases hs : env.stripErr with
  | none =>
    refine ⟨[.strip, .pull], ?_, by simp [isPublishCall]⟩
    simp only [clean, hs]
    rw [doPull_state]
    simp
  | some e =>
    by_cases hb : hasSubstr e "abort: empty revision set" = true
    · refine ⟨[.strip, .pull], ?_, by simp [isPublishCall]⟩
      simp only [clean, hs, hb, if_true]
      rw [doPull_state]
      simp
    · refine ⟨[.strip], ?_, by simp [isPublishCall]⟩
      rw [Bool.not_eq_true] at hb
      simp [clean, hs, hb]

/-- A run whose cleaning, stack resolution, message fetch and stack
application all succeed reaches `finishRun` with exactly the recorded
prefix trace and the draft commits of the stack. -/
theorem push_to_try_run (env : Env) (w : MercurialWorker) (btp : Option String) (phid : String)
    (t : TreeState) (hok : cleanOkB env = true) (hd : t.drafts = [])
    (base : String) (p0 : String × String) (ps' : List (String × String))
    (hstack : env.stackResult = .ok (base, p0 :: ps'))
    (ds : List (String × List String)) (hsearch : env.searchResult = .ok ds)
    (himp : ∀ p ∈ p0 :: ps', env.importErr p.1 = none) :
    push_to_try env w btp phid ⟨[], t⟩ =
      finishRun env w btp phid base
        ⟨[.strip, .pull, .loadStack, .searchDiffs] ++ importEffects (commitsFun ds) (p0 :: ps'),
         ⟨draftsOf (commitsFun ds) (p0 :: ps'), t.uncommitted⟩⟩ := by
  obtain ⟨dfts, unc⟩ := t
  replace hd : dfts = [] := hd
  subst hd
  have hcl := clean_ok env ⟨[], ⟨[], unc⟩⟩ hok rfl
  have happ := applyPatches_ok env (commitsFun ds) (p0 :: ps')
      ⟨[.strip, .pull, .loadStack, .searchDiffs], ⟨[], unc⟩⟩ himp
  simp only [push_to_try, hcl, hstack, hsearch, List.isEmpty_cons, Bool.false_eq_true,
    if_false]
  simp only [List.append_assoc, List.cons_append, List.nil_append] at happ ⊢
  rw [happ]

/-- The exact path of the trigger config file inside the tree. -/
def configPathOf (w : MercurialWorker) : String :=
  w.repo_dir ++ "/try_task_config.json"

/-- The exact commit message of the trigger config commit. -/
def configCommitMsg (diff_phid : String) : String :=
  "try_task_config for code-review\nDifferential Diff: " ++ diff_phid

/-- When the config can be staged and committed but the resulting tip equals
the base, `finishRun` fails with the no-op error and records no push. -/
theorem finishRun_noop (env : Env) (w : MercurialWorker) (btp : Option String)
    (phid base : String) (s : WState)
    (hadd : env.addErr = none) (hcommit : env.commitErr = none)
    (htip : env.tipNode = base) :
    finishRun env w btp phid base s =
      (.error (.genericError
        ("Commit is the same as base (" ++ env.tipNode ++ "), nothing changed !")),
       ⟨s.trace ++ [.writeConfig (configPathOf w) (pyJsonDump (configJson (pyOr btp phid))),
                    .add (configPathOf w), .commit (configCommitMsg phid) "pulselistener",
                    .readTip],
        ⟨s.tree.drafts ++ [(configCommitMsg phid, "pulselistener")], []⟩⟩) := by
  simp only [finishRun, hadd, hcommit, htip, if_pos, configPathOf, configCommitMsg]
  simp [List.append_assoc]

/-- The dashboard-link effect a successful run appends: present exactly when
a truthy build target is given and publication is enabled. -/
def harbSuffix (env : Env) (w : MercurialWorker) (btp : Option String) : List Effect :=
  match btp with
  | some target =>
    if target != "" && w.publish_phabricator then
      [.harbormasterUri target "treeherder" "Treeherder Jobs" (treeherderUrl env.tipNode)]
    else []
  | none => []

theorem finishRun_push (env : Env) (w : MercurialWorker) (btp : Option String)
    (phid base : String) (s : WState)
    (hadd : env.addErr = none) (hcommit : env.commitErr = none)
    (htip : env.tipNode ≠ base) (hpush : env.pushErr = none) :
    finishRun env w btp phid base s =
      (.ok (),
       ⟨s.trace ++ [.writeConfig (configPathOf w) (pyJsonDump (configJson (pyOr btp phid))),
                    .add (configPathOf w), .commit (configCommitMsg phid) "pulselistener",
                    .readTip, .push REPO_TRY env.tipNode true] ++ harbSuffix env w btp,
        ⟨s.tree.drafts ++ [(configCommitMsg phid, "pulselistener")], []⟩⟩) := by
  cases btp with
  | none =>
    simp only [finishRun, hadd, hcommit, if_neg htip, hpush, configPathOf, configCommitMsg,
      harbSuffix]
    simp [List.append_assoc]
  | some target =>
    by_cases hc : (target != "" && w.publish_phabricator) = true
    · simp only [finishRun, hadd, hcommit, if_neg htip, hpush, hc, if_pos, configPathOf,
        configCommitMsg, harbSuffix]
      simp [List.append_assoc]
    · rw [Bool.not_eq_true] at hc
      simp only [finishRun, hadd, hcommit, if_neg htip, hpush, hc, configPathOf,
        configCommitMsg, harbSuffix]
      simp [List.append_assoc]

/-- With publication disabled, every `finishRun` outcome only appends
non-publishing effects to the trace. -/
theorem finishRun_traceDelta (env : Env) (w : MercurialWorker) (btp : Option String)
    (phid base : String) (s : WState) (hpub : w.publish_phabricator = false) :
    ∃ Δ, (finishRun env w btp phid base s).2.trace = s.trace ++ Δ ∧
      ∀ e ∈ Δ, isPublishCall e = false := by
  cases ha : env.addErr with
  | some e =>
    refine ⟨[.writeConfig (configPathOf w) (pyJsonDump (configJson (pyOr btp phid))),
             .add (configPathOf w)], ?_, by simp [isPublishCall]⟩
    simp [finishRun, ha, configPathOf]
  | none =>
    cases hcm : env.commitErr with
    | some e =>
      refine ⟨[.writeConfig (configPathOf w) (pyJsonDump (configJson (pyOr btp phid))),
               .add (configPathOf w), .commit (configCommitMsg phid) "pulselistener"],
        ?_, by simp [isPublishCall]⟩
      simp [finishRun, ha, hcm, configPathOf, configCommitMsg]
    | none =>
      by_cases htip : env.tipNode = base
      · refine ⟨[.writeConfig (configPathOf w) (pyJsonDump (configJson (pyOr btp phid))),
                 .add (configPathOf w), .commit (configCommitMsg phid) "pulselistener",
                 .readTip], ?_, by simp [isPublishCall]⟩
        simp [finishRun, ha, hcm, htip, configPathOf, configCommitMsg]
      · cases hps : env.pushErr with
        | some e =>
          refine ⟨[.writeConfig (configPathOf w) (pyJsonDump (configJson (pyOr btp phid))),
                   .add (configPathOf w), .commit (configCommitMsg phid) "pulselistener",
                   .readTip, .push REPO_TRY env.tipNode true], ?_, by simp [isPublishCall]⟩
          simp [finishRun, ha, hcm, if_neg htip, hps, configPathOf, configCommitMsg]
        | none =>
          refine ⟨[.writeConfig (configPathOf w) (pyJsonDump (configJson (pyOr btp phid))),
                   .add (configPathOf w), .commit (configCommitMsg phid) "pulselistener",
                   .readTip, .push REPO_TRY env.tipNode true], ?_, by simp [isPublishCall]⟩
          cases btp with
          | none => simp [finishRun, ha, hcm, if_neg htip, hps, configPathOf, configCommitMsg]
          | some target =>
            simp [finishRun, ha, hcm, if_neg htip, hps, hpub, configPathOf, configCommitMsg]

/-- With publication disabled, every `push_to_try` outcome only appends
non-publishing effects to the trace. -/
theorem push_to_try_traceDelta (env : Env) (w : MercurialWorker) (btp : Option String)
    (phid : String) (s : WState) (hpub : w.publish_phabricator = false) :
    ∃ Δ, (push_to_try env w btp phid s).2.trace = s.trace ++ Δ ∧
      ∀ e ∈ Δ, isPublishCall e = false := by
  obtain ⟨Δc, hc, hcnp⟩ := clean_traceDelta env s
  rcases hcl : clean env s with ⟨r, s₁⟩
  rw [hcl] at hc
  simp only at hc
  cases r with
  | error e => exact ⟨Δc, by simp [push_to_try, hcl]; exact hc, hcnp⟩
  | ok u =>
    cases hst : env.stackResult with
    | error msg =>
      refine ⟨Δc ++ [.loadStack], ?_, ?_⟩
      · simp [push_to_try, hcl, hst, hc]
      · simp only [List.forall_mem_append]
        exact ⟨hcnp, by simp [isPublishCall]⟩
    | ok pr =>
      obtain ⟨base, patches⟩ := pr
      by_cases hemp : patches.isEmpty = true
      · refine ⟨Δc ++ [.loadStack], ?_, ?_⟩
        · simp [push_to_try, hcl, hst, hemp, hc]
        · simp only [List.forall_mem_append]
          exact ⟨hcnp, by simp [isPublishCall]⟩
      · rw [Bool.not_eq_true] at hemp
        cases hsr : env.searchResult with
        | error msg =>
          refine ⟨Δc ++ [.loadStack, .searchDiffs], ?_, ?_⟩
          · simp [push_to_try, hcl, hst, hemp, hsr, hc]
          · simp only [List.forall_mem_append]
            exact ⟨hcnp, by simp [isPublishCall]⟩
        | ok ds =>
          obtain ⟨Δa, ha, hanp⟩ := applyPatches_traceDelta env (commitsFun ds) patches
            ⟨(s₁.trace ++ [Effect.loadStack]) ++ [Effect.searchDiffs], s₁.tree⟩
          rcases happ : applyPatches env (commitsFun ds) patches
            ⟨(s₁.trace ++ [Effect.loadStack]) ++ [Effect.searchDiffs], s₁.tree⟩ with ⟨ra, s₄⟩
          rw [happ] at ha
          simp only at ha
          cases ra with
          | error e =>
            refine ⟨Δc ++ [.loadStack, .searchDiffs] ++ Δa, ?_, ?_⟩
            · simp only [push_to_try, hcl, hst, hemp, Bool.false_eq_true, if_false, hsr, happ]
              rw [ha, hc]
              simp
            · simp only [List.forall_mem_append]
              exact ⟨⟨hcnp, by simp [isPublishCall]⟩, hanp⟩
          | ok ua =>
            obtain ⟨Δf, hf, hfnp⟩ := finishRun_traceDelta env w btp phid base s₄ hpub
            refine ⟨Δc ++ [.loadStack, .searchDiffs] ++ Δa ++ Δf, ?_, ?_⟩
            · simp only [push_to_try, hcl, hst, hemp, Bool.false_eq_true, if_false, hsr, happ]
              rw [hf, ha, hc]
              simp
            · simp only [List.forall_mem_append]
              exact ⟨⟨⟨hcnp, by simp [isPublishCall]⟩, hanp⟩, hfnp⟩

/-! The claims. -/

/-- Claim C1: for every well-formed queue entry, the worker-loop iteration
never raises past the per-diff boundary: it returns the boolean
success flag of the per-entry handler, true exactly when the pipeline
succeeded.  (The review-service reporter wrappers are modelled from the
spec as swallowing their own failures.) -/
theorem handle_build_never_raises (env : Env) (w : MercurialWorker) (btp : Option String)
    (l : List (String × String)) (phid : String) (s : WState)
    (hphid : List.lookup "phid" l = some phid) :
    workerStep env w (btp, .pdict l) s = .ok (handle_build env w btp phid s) ∧
    ((handle_build env w btp phid s).1 = true ↔
      (push_to_try env w btp phid s).1 = .ok ()) := by
  constructor
  · simp [workerStep, hphid]
  · rcases hp : push_to_try env w btp phid s with ⟨r, s'⟩
    cases r with
    | ok u => simp [handle_build, hp]
    | error e => simp [handle_build, hp]

/-- Claim C2: a failed run is classified into exactly two kinds: a
version-control command error is reported as a `UnitResult` with namespace
`code-review`, name `mercurial`, result `Fail` and details containing the
decoded stderr; any other failure as name `general`, result `Broken`;
both carry the elapsed duration since the run started. -/
theorem failure_classification (env₁ env₂ : Env) (w : MercurialWorker) (btp : Option String)
    (phid : String) (s : WState) (err msg : String) (s₁ s₂ : WState)
    (hpub : w.publish_phabricator = true)
    (h₁ : push_to_try env₁ w btp phid s = (.error (.commandError err), s₁))
    (h₂ : push_to_try env₂ w btp phid s = (.error (.genericError msg), s₂)) :
    handle_build env₁ w btp phid s =
      (false, ⟨s₁.trace ++ [.revert w.repo_dir,
        .updateBuildTarget btp .fail [failureUnit env₁ (.commandError err)]],
        revertAllTree s₁.tree⟩) ∧
    (failureUnit env₁ (.commandError err)).nspace = "code-review" ∧
    (failureUnit env₁ (.commandError err)).name = "mercurial" ∧
    (failureUnit env₁ (.commandError err)).result = .fail ∧
    hasSubstr (failureUnit env₁ (.commandError err)).details err = true ∧
    (failureUnit env₁ (.commandError err)).duration = env₁.failTime - env₁.startTime ∧
    handle_build env₂ w btp phid s =
      (false, ⟨s₂.trace ++ [.revert w.repo_dir,
        .updateBuildTarget btp .fail [failureUnit env₂ (.genericError msg)]],
        revertAllTree s₂.tree⟩) ∧
    (failureUnit env₂ (.genericError msg)).nspace = "code-review" ∧
    (failureUnit env₂ (.genericError msg)).name = "general" ∧
    (failureUnit env₂ (.genericError msg)).result = .broken ∧
    (failureUnit env₂ (.genericError msg)).duration = env₂.failTime - env₂.startTime := by
  refine ⟨?_, rfl, rfl, rfl, ?_, rfl, ?_, rfl, rfl, rfl, rfl⟩
  · simp [handle_build, h₁, hpub]
  · exact hasSubstr_mid "WARNING: The code review bot failed to apply your patch.\n\n```"
      err "```"
  · simp [handle_build, h₂, hpub]

/-- Claim C6: `clean` swallows exactly the benign nothing-to-discard strip
failure, and propagates unchanged any other strip failure and any pull
failure. -/
theorem clean_error_policy (env₁ env₂ env₃ : Env) (s : WState) (e₁ e₂ e₃ : String)
    (h₁ : env₁.stripErr = some e₁)
    (hb₁ : hasSubstr e₁ "abort: empty revision set" = true)
    (hp₁ : env₁.pullErr = none)
    (h₂ : env₂.stripErr = some e₂)
    (hb₂ : hasSubstr e₂ "abort: empty revision set" = false)
    (h₃ : env₃.stripErr = none) (hp₃ : env₃.pullErr = some e₃) :
    (clean env₁ s).1 = .ok () ∧
    (clean env₂ s).1 = .error (.commandError e₂) ∧
    (clean env₃ s).1 = .error (.commandError e₃) := by
  refine ⟨?_, ?_, ?_⟩
  · simp [clean, h₁, hb₁, doPull, hp₁]
  · simp [clean, h₂, hb₂]
  · simp [clean, h₃, doPull, hp₃]

/-- Claim C9: on every failed run with publication enabled, the build-target
update carries build state `Fail` regardless of the failure kind (only the
attached unit result distinguishes the kinds), and it is issued even when
the build target id is null. -/
theorem update_always_build_fail (env : Env) (w : MercurialWorker) (btp : Option String)
    (phid : String) (s : WState) (e : PyErr) (s₂ : WState)
    (hpub : w.publish_phabricator = true)
    (hrun : push_to_try env w btp phid s = (.error e, s₂)) :
    Effect.updateBuildTarget btp BuildState.fail [failureUnit env e] ∈
      (handle_build env w btp phid s).2.trace := by
  simp [handle_build, hrun, hpub]

/-- A push effect. -/
def isPush : Effect → Bool
  | .push _ _ _ => true
  | _ => false

/-- Claim C3: when the tip read after applying the stack and committing the
config equals the base revision, the run fails with the no-op-change error
and records no push. -/
theorem noop_guard_no_push (env : Env) (w : MercurialWorker) (btp : Option String)
    (phid : String) (t : TreeState) (hok : cleanOkB env = true) (hd : t.drafts = [])
    (base : String) (p0 : String × String) (ps' : List (String × String))
    (hstack : env.stackResult = .ok (base, p0 :: ps'))
    (ds : List (String × List String)) (hsearch : env.searchResult = .ok ds)
    (himp : ∀ p ∈ p0 :: ps', env.importErr p.1 = none)
    (hadd : env.addErr = none) (hcommit : env.commitErr = none)
    (htip : env.tipNode = base) :
    (push_to_try env w btp phid ⟨[], t⟩).1 =
      .error (.genericError
        ("Commit is the same as base (" ++ env.tipNode ++ "), nothing changed !")) ∧
    (push_to_try env w btp phid ⟨[], t⟩).2.trace.filter isPush = [] := by
  have hrun := push_to_try_run env w btp phid t hok hd base p0 ps' hstack ds hsearch himp
  rw [hrun, finishRun_noop env w btp phid base _ hadd hcommit htip]
  refine ⟨rfl, ?_⟩
  have himps : (importEffects (commitsFun ds) (p0 :: ps')).filter isPush = [] := by
    rw [List.filter_eq_nil_iff]
    intro a ha
    simp only [importEffects, List.mem_map] at ha
    obtain ⟨p, hp, rfl⟩ := ha
    simp [isPush]
  simp [List.filter_append, himps, isPush]

/-- Claim C4: a diff whose resolved patch stack is empty fails with a
generic error before any tree mutation; only the baseline sync of `clean`
and the stack request have run, and the tree is exactly as before the run. -/
theorem empty_stack_no_mutation (env : Env) (w : MercurialWorker) (btp : Option String)
    (phid : String) (t : TreeState) (base : String)
    (hok : cleanOkB env = true) (hd : t.drafts = [])
    (hstack : env.stackResult = .ok (base, [])) :
    push_to_try env w btp phid ⟨[], t⟩ =
      (.error (.genericError "No patches to apply"),
       ⟨[.strip, .pull, .loadStack], t⟩) ∧
    (push_to_try env w btp phid ⟨[], t⟩).2.trace.filter treeMutation = [] := by
  have hcl := clean_ok env ⟨[], t⟩ hok hd
  have hmain : push_to_try env w btp phid ⟨[], t⟩ =
      (.error (.genericError "No patches to apply"),
       ⟨[.strip, .pull, .loadStack], t⟩) := by
    simp [push_to_try, hcl, hstack]
  refine ⟨hmain, ?_⟩
  rw [hmain]
  rfl

/-- Claim C5: every failed run performs the revert unconditionally, leaving
no uncommitted changes; the revert is total (it clears every uncommitted
change) and idempotent (running it twice equals running it once). -/
theorem revert_on_failure (env : Env) (w : MercurialWorker) (btp : Option String)
    (phid : String) (s : WState) (t₀ : TreeState)
    (hfail : (handle_build env w btp phid s).1 = false) :
    Effect.revert w.repo_dir ∈ (handle_build env w btp phid s).2.trace ∧
    (handle_build env w btp phid s).2.tree.uncommitted = [] ∧
    revertAllTree (revertAllTree t₀) = revertAllTree t₀ ∧
    (revertAllTree t₀).uncommitted = [] := by
  rcases hp : push_to_try env w btp phid s with ⟨r, s'⟩
  cases r with
  | ok u => simp [handle_build, hp] at hfail
  | error e =>
    refine ⟨?_, ?_, rfl, rfl⟩
    · simp only [handle_build, hp]
      split <;> simp
    · simp only [handle_build, hp]
      split <;> simp [revertAllTree]

/-- Claim C7: with publication disabled, no build-target-update and no
dashboard-link call is recorded on any run, successful or failed. -/
theorem no_publication_calls (env : Env) (w : MercurialWorker) (btp : Option String)
    (phid : String) (t : TreeState) (hpub : w.publish_phabricator = false) :
    (handle_build env w btp phid ⟨[], t⟩).2.trace.filter isPublishCall = [] := by
  obtain ⟨Δ, hΔ, hnp⟩ := push_to_try_traceDelta env w btp phid ⟨[], t⟩ hpub
  rcases hp : push_to_try env w btp phid ⟨[], t⟩ with ⟨r, s'⟩
  rw [hp] at hΔ
  have hΔ' : s'.trace = Δ := by simpa using hΔ
  rw [List.filter_eq_nil_iff]
  intro a ha
  cases r with
  | ok u =>
    simp only [handle_build, hp] at ha
    rw [hΔ'] at ha
    simp [hnp a ha]
  | error e =>
    simp only [handle_build, hp, hpub, Bool.false_eq_true, if_false] at ha
    simp only [List.mem_append, hΔ'] at ha
    rcases ha with ha | ha
    · simp [hnp a ha]
    · simp only [List.mem_singleton] at ha
      subst ha
      simp [isPublishCall]

/-- Claim C8: every successful run writes the trigger config exactly as the
sorted, 4-space-indented JSON with `phabricator_diff` set to the build
target id when truthy, else the phid of the diff, at
`<tree_root>/try_task_config.json`, and commits it with the exact message
and bot identity before the push. -/
theorem trigger_config_exact (env : Env) (w : MercurialWorker) (btp : Option String)
    (phid : String) (t : TreeState) (hok : cleanOkB env = true) (hd : t.drafts = [])
    (base : String) (p0 : String × String) (ps' : List (String × String))
    (hstack : env.stackResult = .ok (base, p0 :: ps'))
    (ds : List (String × List String)) (hsearch : env.searchResult = .ok ds)
    (himp : ∀ p ∈ p0 :: ps', env.importErr p.1 = none)
    (hadd : env.addErr = none) (hcommit : env.commitErr = none)
    (htip : env.tipNode ≠ base) (hpush : env.pushErr = none) :
    (push_to_try env w btp phid ⟨[], t⟩).1 = .ok () ∧
    (push_to_try env w btp phid ⟨[], t⟩).2.trace =
      [.strip, .pull, .loadStack, .searchDiffs] ++
        importEffects (commitsFun ds) (p0 :: ps') ++
        [.writeConfig (configPathOf w) (cfgBefore ++ escString (pyOr btp phid) ++ cfgAfter),
         .add (configPathOf w), .commit (configCommitMsg phid) "pulselistener",
         .readTip, .push REPO_TRY env.tipNode true] ++
        harbSuffix env w btp := by
  have hrun := push_to_try_run env w btp phid t hok hd base p0 ps' hstack ds hsearch himp
  rw [hrun, finishRun_push env w btp phid base _ hadd hcommit htip hpush]
  refine ⟨rfl, ?_⟩
  rw [configJson_dump (pyOr btp phid)]

/-- Claim C10: a dequeued entry whose payload is not a dictionary or lacks
the key `phid` makes the worker loop raise an uncaught assertion failure
before the per-diff pipeline is invoked, terminating the loop; the
malformed entry is not converted into a per-diff failure report. -/
theorem malformed_entry_terminates (env : Env) (w : MercurialWorker)
    (l₁ l₂ : List (Option String × PyVal)) (en : Option String × PyVal) (s : WState)
    (hgood : ∀ x ∈ l₁, wellFormedEntry x = true)
    (hbad : wellFormedEntry en = false) :
    workerStep env w en s = .error (.genericError "") ∧
    workerLoop env w (l₁ ++ en :: l₂) s = .error (.genericError "") := by
  have hstep : ∀ s', workerStep env w en s' = .error (.genericError "") := by
    intro s'
    rcases en with ⟨b, v⟩
    cases v with
    | pdict l =>
      simp only [wellFormedEntry] at hbad
      cases hlk : List.lookup "phid" l with
      | some p => rw [hlk] at hbad; simp at hbad
      | none => simp [workerStep, hlk]
    | pstr str => rfl
    | pnone => rfl
  have hloop : ∀ (l : List (Option String × PyVal)),
      (∀ x ∈ l, wellFormedEntry x = true) → ∀ s',
      workerLoop env w (l ++ en :: l₂) s' = .error (.genericError "") := by
    intro l
    induction l with
    | nil =>
      intro _ s'
      simp [workerLoop, hstep s']
    | cons x rest ih =>
      intro hg s'
      have hx := hg x (by simp)
      rcases x with ⟨b', v'⟩
      cases v' with
      | pdict l' =>
        simp only [wellFormedEntry] at hx
        rw [Option.isSome_iff_exists] at hx
        obtain ⟨p, hp⟩ := hx
        have ihrest := ih fun y hy => hg y (by simp [hy])
        simp [workerLoop, workerStep, hp, ihrest]
      | pstr s'' => simp [wellFormedEntry] at hx
      | pnone => simp [wellFormedEntry] at hx
  exact ⟨hstep s, hloop l₁ hgood s⟩

/-! Concrete fixtures for the witnesses. -/

/-- A worker with publication enabled. -/
def wrkPub : MercurialWorker := ⟨"/repo", true⟩

/-- A worker with publication disabled. -/
def wrkNoPub : MercurialWorker := ⟨"/repo", false⟩

/-- The empty initial worker state. -/
def s0 : WState := ⟨[], ⟨[], []⟩⟩

/-- An oracle under which the whole run succeeds. -/
def envPushOk : Env :=
  ⟨none, none, .ok ("base0", [("PHID-DIFF-1", "diff text")]),
   .ok [("PHID-DIFF-1", ["fix bug"])], fun _ => none, none, none, "tip42", none, 100, 103⟩

/-- An oracle under which the new tip equals the base revision. -/
def envNoop : Env :=
  ⟨none, none, .ok ("base0", [("PHID-DIFF-1", "diff text")]),
   .ok [("PHID-DIFF-1", ["fix bug"])], fun _ => none, none, none, "base0", none, 100, 103⟩

/-- An oracle under which the resolved patch stack is empty. -/
def envEmptyStack : Env :=
  ⟨none, none, .ok ("base0", []), .ok [], fun _ => none, none, none, "tip42", none, 100, 103⟩

/-- An oracle under which only the final push fails, with a command error. -/
def envPushFail : Env :=
  ⟨none, none, .ok ("base0", [("PHID-DIFF-1", "diff text")]),
   .ok [("PHID-DIFF-1", ["fix bug"])], fun _ => none, none, none, "tip42",
   some "abort: push failed", 100, 103⟩

/-- An oracle under which stack resolution fails, a generic failure. -/
def envStackFail : Env :=
  ⟨none, none, .error "network error", .error "network error",
   fun _ => none, none, none, "tip42", none, 100, 103⟩

/-- An oracle whose strip fails with the benign empty-revision-set error. -/
def envStripBenign : Env :=
  ⟨some "abort: empty revision set", none, .error "x", .error "x",
   fun _ => none, none, none, "t", none, 0, 0⟩

/-- An oracle whose strip fails with a non-benign error. -/
def envStripBad : Env :=
  ⟨some "abort: repository locked", none, .error "x", .error "x",
   fun _ => none, none, none, "t", none, 0, 0⟩

/-- An oracle whose pull fails. -/
def envPullFail : Env :=
  ⟨none, some "pull timeout", .error "x", .error "x",
   fun _ => none, none, none, "t", none, 0, 0⟩

/-- Witness for claim C1 at a concrete well-formed entry. -/
theorem handle_build_never_raises_witness :
    workerStep envPushOk wrkPub (some "PHID-BUILD-1", .pdict [("phid", "PHID-DIFF-1")]) s0 =
      .ok (handle_build envPushOk wrkPub (some "PHID-BUILD-1") "PHID-DIFF-1" s0) ∧
    ((handle_build envPushOk wrkPub (some "PHID-BUILD-1") "PHID-DIFF-1" s0).1 = true ↔
      (push_to_try envPushOk wrkPub (some "PHID-BUILD-1") "PHID-DIFF-1" s0).1 = .ok ()) :=
  handle_build_never_raises envPushOk wrkPub (some "PHID-BUILD-1")
    [("phid", "PHID-DIFF-1")] "PHID-DIFF-1" s0 rfl

/-- Witness for claim C2 at two concrete failing runs: a push command error
and a generic stack-resolution error. -/
theorem failure_classification_witness :
    handle_build envPushFail wrkPub (some "PHID-BUILD-1") "PHID-DIFF-1" s0 =
      (false, ⟨(push_to_try envPushFail wrkPub (some "PHID-BUILD-1") "PHID-DIFF-1" s0).2.trace ++
        [.revert wrkPub.repo_dir,
         .updateBuildTarget (some "PHID-BUILD-1") .fail
           [failureUnit envPushFail (.commandError "abort: push failed")]],
        revertAllTree (push_to_try envPushFail wrkPub (some "PHID-BUILD-1") "PHID-DIFF-1" s0).2.tree⟩) ∧
    (failureUnit envPushFail (.commandError "abort: push failed")).nspace = "code-review" ∧
    (failureUnit envPushFail (.commandError "abort: push failed")).name = "mercurial" ∧
    (failureUnit envPushFail (.commandError "abort: push failed")).result = .fail ∧
    hasSubstr (failureUnit envPushFail (.commandError "abort: push failed")).details
      "abort: push failed" = true ∧
    (failureUnit envPushFail (.commandError "abort: push failed")).duration =
      envPushFail.failTime - envPushFail.startTime ∧
    handle_build envStackFail wrkPub (some "PHID-BUILD-1") "PHID-DIFF-1" s0 =
      (false, ⟨(push_to_try envStackFail wrkPub (some "PHID-BUILD-1") "PHID-DIFF-1" s0).2.trace ++
        [.revert wrkPub.repo_dir,
         .updateBuildTarget (some "PHID-BUILD-1") .fail
           [failureUnit envStackFail (.genericError "network error")]],
        revertAllTree (push_to_try envStackFail wrkPub (some "PHID-BUILD-1") "PHID-DIFF-1" s0).2.tree⟩) ∧
    (failureUnit envStackFail (.genericError "network error")).nspace = "code-review" ∧
    (failureUnit envStackFail (.genericError "network error")).name = "general" ∧
    (failureUnit envStackFail (.genericError "network error")).result = .broken ∧
    (failureUnit envStackFail (.genericError "network error")).duration =
      envStackFail.failTime - envStackFail.startTime :=
  failure_classification envPushFail envStackFail wrkPub (some "PHID-BUILD-1") "PHID-DIFF-1"
    s0 "abort: push failed" "network error"
    (push_to_try envPushFail wrkPub (some "PHID-BUILD-1") "PHID-DIFF-1" s0).2
    (push_to_try envStackFail wrkPub (some "PHID-BUILD-1") "PHID-DIFF-1" s0).2
    rfl rfl rfl

/-- Witness for claim C3 at a concrete run whose tip equals the base. -/
theorem noop_guard_no_push_witness :
    (push_to_try envNoop wrkPub (some "PHID-BUILD-1") "PHID-DIFF-1" ⟨[], ⟨[], []⟩⟩).1 =
      .error (.genericError
        ("Commit is the same as base (" ++ envNoop.tipNode ++ "), nothing changed !")) ∧
    (push_to_try envNoop wrkPub (some "PHID-BUILD-1") "PHID-DIFF-1"
      ⟨[], ⟨[], []⟩⟩).2.trace.filter isPush = [] :=
  noop_guard_no_push envNoop wrkPub (some "PHID-BUILD-1") "PHID-DIFF-1" ⟨[], []⟩ rfl rfl
    "base0" ("PHID-DIFF-1", "diff text") [] rfl [("PHID-DIFF-1", ["fix bug"])] rfl
    (by decide) rfl rfl rfl

/-- Witness for claim C4 at a concrete run with an empty resolved stack. -/
theorem empty_stack_no_mutation_witness :
    push_to_try envEmptyStack wrkPub (some "PHID-BUILD-1") "PHID-DIFF-1" ⟨[], ⟨[], []⟩⟩ =
      (.error (.genericError "No patches to apply"),
       ⟨[.strip, .pull, .loadStack], ⟨[], []⟩⟩) ∧
    (push_to_try envEmptyStack wrkPub (some "PHID-BUILD-1") "PHID-DIFF-1"
      ⟨[], ⟨[], []⟩⟩).2.trace.filter treeMutation = [] :=
  empty_stack_no_mutation envEmptyStack wrkPub (some "PHID-BUILD-1") "PHID-DIFF-1"
    ⟨[], []⟩ "base0" rfl rfl rfl

/-- Witness for claim C5 at a concrete failed run. -/
theorem revert_on_failure_witness :
    Effect.revert wrkPub.repo_dir ∈
      (handle_build envStackFail wrkPub (some "PHID-BUILD-1") "PHID-DIFF-1" s0).2.trace ∧
    (handle_build envStackFail wrkPub (some "PHID-BUILD-1") "PHID-DIFF-1"
      s0).2.tree.uncommitted = [] ∧
    revertAllTree (revertAllTree ⟨[("m", "u")], ["x"]⟩) = revertAllTree ⟨[("m", "u")], ["x"]⟩ ∧
    (revertAllTree ⟨[("m", "u")], ["x"]⟩).uncommitted = [] :=
  revert_on_failure envStackFail wrkPub (some "PHID-BUILD-1") "PHID-DIFF-1" s0
    ⟨[("m", "u")], ["x"]⟩ (by decide)

/-- Witness for claim C6 at three concrete cleaning oracles. -/
theorem clean_error_policy_witness :
    (clean envStripBenign s0).1 = .ok () ∧
    (clean envStripBad s0).1 = .error (.commandError "abort: repository locked") ∧
    (clean envPullFail s0).1 = .error (.commandError "pull timeout") :=
  clean_error_policy envStripBenign envStripBad envPullFail s0
    "abort: empty revision set" "abort: repository locked" "pull timeout"
    rfl (by decide) rfl rfl (by decide) rfl rfl

/-- Witness for claim C7 at a concrete run with publication disabled. -/
theorem no_publication_calls_witness :
    (handle_build envPushOk wrkNoPub (some "PHID-BUILD-1") "PHID-DIFF-1"
      ⟨[], ⟨[], []⟩⟩).2.trace.filter isPublishCall = [] :=
  no_publication_calls envPushOk wrkNoPub (some "PHID-BUILD-1") "PHID-DIFF-1" ⟨[], []⟩ rfl

/-- Witness for claim C8 at a concrete successful run, also spelling out the
serialized config text in full. -/
theorem trigger_config_exact_witness :
    ((push_to_try envPushOk wrkPub (some "PHID-BUILD-1") "PHID-DIFF-1" ⟨[], ⟨[], []⟩⟩).1 =
      .ok () ∧
    (push_to_try envPushOk wrkPub (some "PHID-BUILD-1") "PHID-DIFF-1" ⟨[], ⟨[], []⟩⟩).2.trace =
      [.strip, .pull, .loadStack, .searchDiffs] ++
        importEffects (commitsFun [("PHID-DIFF-1", ["fix bug"])])
          [("PHID-DIFF-1", "diff text")] ++
        [.writeConfig (configPathOf wrkPub)
           (cfgBefore ++ escString (pyOr (some "PHID-BUILD-1") "PHID-DIFF-1") ++ cfgAfter),
         .add (configPathOf wrkPub), .commit (configCommitMsg "PHID-DIFF-1") "pulselistener",
         .readTip, .push REPO_TRY envPushOk.tipNode true] ++
        harbSuffix envPushOk wrkPub (some "PHID-BUILD-1")) ∧
    cfgBefore ++ escString (pyOr (some "PHID-BUILD-1") "PHID-DIFF-1") ++ cfgAfter =
      "\x7b\n    \"parameters\": \x7b\n        \"optimize_target_tasks\": true,\n        \"phabricator_diff\": \"PHID-BUILD-1\",\n        \"target_tasks_method\": \"codereview\"\n    \x7d,\n    \"version\": 2\n\x7d" :=
  ⟨trigger_config_exact envPushOk wrkPub (some "PHID-BUILD-1") "PHID-DIFF-1" ⟨[], []⟩
    rfl rfl "base0" ("PHID-DIFF-1", "diff text") [] rfl [("PHID-DIFF-1", ["fix bug"])] rfl
    (by decide) rfl rfl (by decide) rfl, by decide⟩

/-- Witness for claim C9 at a concrete failed run with a null build target. -/
theorem update_always_build_fail_witness :
    Effect.updateBuildTarget none BuildState.fail
      [failureUnit envStackFail (.genericError "network error")] ∈
      (handle_build envStackFail wrkPub none "PHID-DIFF-1" s0).2.trace :=
  update_always_build_fail envStackFail wrkPub none "PHID-DIFF-1" s0
    (.genericError "network error")
    (push_to_try envStackFail wrkPub none "PHID-DIFF-1" s0).2 rfl rfl

/-- Witness for claim C10 at a concrete malformed entry after a well-formed
one. -/
theorem malformed_entry_terminates_witness :
    workerStep envPushOk wrkPub (none, .pstr "junk") s0 = .error (.genericError "") ∧
    workerLoop envPushOk wrkPub
      ([(some "PHID-BUILD-1", .pdict [("phid", "PHID-DIFF-1")])] ++
        (none, .pstr "junk") :: [(none, .pdict [("phid", "PHID-DIFF-2")])]) s0 =
      .error (.genericError "") :=
  malformed_entry_terminates envPushOk wrkPub
    [(some "PHID-BUILD-1", .pdict [("phid", "PHID-DIFF-1")])]
    [(none, .pdict [("phid", "PHID-DIFF-2")])] (none, .pstr "junk") s0 (by decide) rfl

end PulseListener
